import Mathlib

/-!
Shallow embedding of `generate_feed.py` (podcast-feed repository).

The script has two parts: `_MainTextExtractor`, an `html.parser.HTMLParser`
subclass extracting plaintext from `<main>...</main>`, and `generate_feed`,
which assembles an RSS 2.0 XML tree from a directory of audio files, a JSON
config, and optional per-episode HTML files.

Modelling conventions:
* The Python stdlib tokenizer (`HTMLParser.feed`) is external code; the
  extractor is embedded at its event interface: a list of `HTMLEvent`s
  (start tag with attributes, end tag, character data), exactly the calls
  `HTMLParser` makes into `handle_starttag` / `handle_endtag` / `handle_data`.
* Python strings are Lean `String`s; the normalization pipeline
  (`splitlines` / `strip` / `join`) is modelled on `List Char` with the
  code-point semantics of the Python string methods.
* Filesystem and tag-reading I/O (`os.listdir`, `os.path.getsize`,
  `mutagen`, reading the HTML and config files) is external; it enters the
  embedding as an explicit environment record.
-/

/-- One event of Python's `html.parser.HTMLParser` as delivered to the
handler methods of `_MainTextExtractor`: attribute values may be `None`
(attribute present without a value), hence `Option String`. -/
inductive HTMLEvent where
  | startTag (tag : String) (attrs : List (String × Option String))
  | endTag (tag : String)
  | data (s : String)
deriving DecidableEq, Repr

/-- State of the `_MainTextExtractor` parser class: the `_in_main` flag, the
accumulated `_chunks` buffer (Python appends at the end of the list), and the
`_anchor_stack` of hrefs of open `<a>` tags (Python appends and pops at the
end of the list). -/
structure _MainTextExtractor where
  _in_main : Bool
  _chunks : List String
  _anchor_stack : List (Option String)
deriving DecidableEq, Repr

/-- `_MainTextExtractor.__init__`. -/
def initExtractor : _MainTextExtractor :=
  { _in_main := false, _chunks := [], _anchor_stack := [] }

/-- The block-level tags that emit a newline at the open tag. -/
def startBlockTags : List String :=
  ["p", "div", "section", "article", "li", "br", "h1", "h2", "h3", "h4", "h5", "h6"]

/-- The block-level tags that emit an additional newline at the close tag. -/
def endBlockTags : List String :=
  ["p", "div", "section", "article", "li"]

/-- `str.lower` on the code points (`Char.toLower` is the ASCII case map;
the stdlib tokenizer delivers tag names already lowercased, so non-ASCII
case mappings are immaterial for the tag comparisons that use this). -/
def pyLower (s : String) : String := String.mk (s.data.map Char.toLower)

/-- The `for k, v in attrs` loop of `handle_starttag`: value of the first
attribute whose name lowercases to `href`, else the initial `None`.  A hit
whose value is itself `None` also leaves `href = None`, which is what the
flattened `Option` returns. -/
def findHref (attrs : List (String × Option String)) : Option String :=
  match attrs.find? (fun kv => pyLower kv.1 == "href") with
  | some kv => kv.2
  | none => none

/-- `_MainTextExtractor.handle_starttag`.  The Python method first sets
`_in_main` on a `main` tag, and the later branches read the updated flag. -/
def _MainTextExtractor.handle_starttag (st : _MainTextExtractor) (tag : String)
    (attrs : List (String × Option String)) : _MainTextExtractor :=
  let st := if pyLower tag == "main" then { st with _in_main := true } else st
  let st :=
    if st._in_main && startBlockTags.contains (pyLower tag) then
      { st with _chunks := st._chunks ++ ["\n"] }
    else st
  if st._in_main && pyLower tag == "a" then
    { st with _anchor_stack := st._anchor_stack ++ [findHref attrs] }
  else st

/-- `_MainTextExtractor.handle_endtag`.  `self._anchor_stack.pop()` removes
the last element; `if href:` is Python truthiness, false for `None` and for
the empty string. -/
def _MainTextExtractor.handle_endtag (st : _MainTextExtractor) (tag : String) :
    _MainTextExtractor :=
  let st :=
    if st._in_main && endBlockTags.contains (pyLower tag) then
      { st with _chunks := st._chunks ++ ["\n"] }
    else st
  let st :=
    if st._in_main && pyLower tag == "a" then
      match st._anchor_stack.getLast? with
      | some href =>
        let st := { st with _anchor_stack := st._anchor_stack.dropLast }
        match href with
        | some h => if h ≠ "" then { st with _chunks := st._chunks ++ [" (" ++ h ++ ")"] } else st
        | none => st
      | none => st
    else st
  if pyLower tag == "main" then { st with _in_main := false } else st

/-- `_MainTextExtractor.handle_data`. -/
def _MainTextExtractor.handle_data (st : _MainTextExtractor) (s : String) :
    _MainTextExtractor :=
  if st._in_main then { st with _chunks := st._chunks ++ [s] } else st

/-- Dispatch one tokenizer event to the corresponding handler method. -/
def applyEvent (st : _MainTextExtractor) : HTMLEvent → _MainTextExtractor
  | .startTag tag attrs => st.handle_starttag tag attrs
  | .endTag tag => st.handle_endtag tag
  | .data s => st.handle_data s

/-- `parser.feed(content)` on a fresh parser: fold the event stream the
tokenizer produces for the document over the handler methods. -/
def feedEvents (events : List HTMLEvent) : _MainTextExtractor :=
  events.foldl applyEvent initExtractor

/-- Python `str.isspace` / the character class stripped by `str.strip()`:
Unicode whitespace. -/
def pyIsSpace (c : Char) : Bool :=
  c = ' ' || c = '\t' || c = '\n' || c = '\x0b' || c = '\x0c' || c = '\r' ||
  c = '\x1c' || c = '\x1d' || c = '\x1e' || c = '\x1f' || c = '\x85' || c = '\xa0' ||
  c = '\u1680' || ('\u2000' ≤ c && c ≤ '\u200a') || c = '\u2028' || c = '\u2029' ||
  c = '\u202f' || c = '\u205f' || c = '\u3000'

/-- The line boundaries of Python `str.splitlines` (besides `\r\n` as a
single boundary). -/
def isLineBreak (c : Char) : Bool :=
  c = '\n' || c = '\r' || c = '\x0b' || c = '\x0c' ||
  c = '\x1c' || c = '\x1d' || c = '\x1e' || c = '\x85' || c = '\u2028' || c = '\u2029'

/-- Python `str.splitlines` on code points: `acc` holds the current line
reversed, `afterCR` records that the previous character was `\r` (so that a
following `\n` belongs to the same `\r\n` boundary); a trailing line break
produces no trailing empty line. -/
def pySplitlinesGo : List Char → Bool → List Char → List (List Char)
  | [], _, acc => if acc.isEmpty then [] else [acc.reverse]
  | c :: rest, afterCR, acc =>
    if afterCR && c = '\n' then pySplitlinesGo rest false acc
    else if c = '\r' then acc.reverse :: pySplitlinesGo rest true []
    else if isLineBreak c then acc.reverse :: pySplitlinesGo rest false []
    else pySplitlinesGo rest false (c :: acc)

/-- Python `str.splitlines` on a code-point list. -/
def pySplitlinesAux (cs : List Char) (acc : List Char) : List (List Char) :=
  pySplitlinesGo cs false acc

/-- Python `str.strip()` on code points: drop Unicode whitespace from both
ends. -/
def pyStripL (l : List Char) : List Char :=
  List.rdropWhile pyIsSpace (List.dropWhile pyIsSpace l)

/-- `_MainTextExtractor.text`: join the chunks, split into lines, strip each
line, keep the non-empty ones (the `or (l == '' and False)` disjunct in the
source comprehension is dead code), rejoin with `\n`, strip the result. -/
def _MainTextExtractor.text (st : _MainTextExtractor) : String :=
  let raw := String.join st._chunks
  let lines := (pySplitlinesAux raw.data []).map pyStripL
  let compact := List.intercalate ['\n'] (lines.filter (fun l => l ≠ []))
  String.mk (pyStripL compact)

/-- What the read of the per-episode HTML file yields: `none` when
`os.path.exists` is false; `Except.error` when opening, reading or feeding
raises; `Except.ok` carries the event stream the tokenizer produces for the
file's content. -/
abbrev HtmlRead := Option (Except String (List HTMLEvent))

/-- `_extract_summary_from_html`: empty string for an absent file, empty
string when reading or parsing raises (the `except Exception` branch), else
the parser's normalized `text()`. -/
def _extract_summary_from_html (file : HtmlRead) : String :=
  match file with
  | none => ""
  | some (Except.error _) => ""
  | some (Except.ok events) => (feedEvents events).text

/-- `str.endswith` via code-point lists. -/
def pyEndsWith (s suf : String) : Bool := suf.data.isSuffixOf s.data

/-- `os.path.join(a, b)` for POSIX paths: an absolute second component
replaces the first; otherwise the components are joined with `/` unless the
first is empty or already ends with `/`. -/
def pyJoin (a b : String) : String :=
  if b.data.head? = some '/' then b
  else if a = "" || a.data.getLast? = some '/' then a ++ b
  else a ++ "/" ++ b

/-- `os.path.basename`: the part after the last `/`. -/
def pyBasename (p : String) : String :=
  String.mk ((p.data.reverse.takeWhile (fun c => c ≠ '/')).reverse)

/-- Split a code-point list around its last `.`: `some (before, after)`, or
`none` when there is no `.`. -/
def splitLastDot : List Char → Option (List Char × List Char)
  | [] => none
  | c :: rest =>
    match splitLastDot rest with
    | some (a, b) => some (c :: a, b)
    | none => if c = '.' then some ([], rest) else none

/-- `os.path.splitext`: split off the extension at the last `.` of the last
path component, except that a leading run of dots in the component (as in
`.bashrc`) never starts an extension. -/
def pySplitext (p : String) : String × String :=
  let cs := p.data
  let base := (cs.reverse.takeWhile (fun c => c ≠ '/')).reverse
  let dir := cs.take (cs.length - base.length)
  let d := base.takeWhile (fun c => c = '.')
  let r := base.dropWhile (fun c => c = '.')
  match splitLastDot r with
  | some (a, b) => (String.mk (dir ++ d ++ a), String.mk ('.' :: b))
  | none => (p, "")

/-- The ID3 tag fields `get_audio_metadata` reads.  `mutagen` returns lists
of strings; an absent key is `none`, a present one carries its first
element, which is all the source uses. -/
structure AudioTags where
  title : Option String
  artist : Option String
  album : Option String

/-- The dict `get_audio_metadata` returns.  The dict's keys are exactly
`title`, `artist`, `album`, `duration`, so the later
`metadata.get('description', ...)` always takes its default. -/
structure Metadata where
  title : String
  artist : String
  album : String
  duration : Nat

/-- `get_audio_metadata`.  The `MP3(...)` read itself is external I/O and
enters as the `tags` and `length` arguments; `length` is
`int(audio.info.length)`, the stream length in whole seconds.  A tag-read
exception (malformed audio) is not modelled: no claim concerns it. -/
def get_audio_metadata (file_path : String) (tags : AudioTags) (length : Nat) : Metadata :=
  { title := tags.title.getD (pySplitext (pyBasename file_path)).1
    artist := tags.artist.getD "Unknown"
    album := tags.album.getD "Unknown"
    duration := length }

/-- The optional string keys of `config.json`; `config.get(key, default)`
reads each one. -/
structure Config where
  title : Option String
  description : Option String
  link : Option String
  language : Option String
  author : Option String
  image : Option String

/-- An `xml.etree.ElementTree` element: tag, attributes in insertion order,
optional text, children. -/
inductive Xml where
  | elem (tag : String) (attrib : List (String × String)) (text : Option String)
      (children : List Xml)

def Xml.tag : Xml → String
  | .elem t _ _ _ => t

def Xml.attrib : Xml → List (String × String)
  | .elem _ a _ _ => a

def Xml.text : Xml → Option String
  | .elem _ _ t _ => t

def Xml.children : Xml → List Xml
  | .elem _ _ _ cs => cs

/-- The external world `generate_feed` reads:
* `config`: `none` when `os.path.exists(config_path)` is false; `some
  (Except.error e)` when opening or `json.load` raises; `some (Except.ok c)`
  for a parsed config;
* `audioEntries`: the `os.listdir(subfolder_path)` listing;
* `htmlFiles`: per path, the outcome of reading and tokenizing an HTML file;
* `tags` / `lengths`: per path, what `mutagen` reports;
* `sizes`: per path, `os.path.getsize`;
* `now`: the formatted `datetime.now()` timestamp (the source formats a
  fresh `now()` per item; the claims do not depend on its value, so one
  string stands for it). -/
structure Env where
  config : Option (Except String Config)
  audioEntries : List String
  htmlFiles : String → HtmlRead
  tags : String → AudioTags
  lengths : String → Nat
  sizes : String → Nat
  now : String

/-- The file-discovery filter: `f.endswith(('.mp3', '.m4a', '.wav'))`. -/
def hasAudioExt (f : String) : Bool :=
  pyEndsWith f ".mp3" || pyEndsWith f ".m4a" || pyEndsWith f ".wav"

/-- Python's `<=` on strings, on code-point lists: lexicographic by code
point. -/
def pyCharListLe : List Char → List Char → Bool
  | [], _ => true
  | _ :: _, [] => false
  | a :: as, b :: bs => if a < b then true else if a = b then pyCharListLe as bs else false

/-- Python's `<=` on strings. -/
def pyStrLe (a b : String) : Bool := pyCharListLe a.data b.data

/-- `list.sort()` on filenames: stable sort under Python's lexicographic
code-point order on strings. -/
def pySorted (l : List String) : List String :=
  l.insertionSort (fun a b => pyStrLe a b = true)

/-- The `summary_text` local of the loop body: extraction from the sibling
`<base name>.html`, falling back to `metadata.get('description',
metadata['title'])`, i.e. to the title (see `Metadata`).  The source
computes this block twice in a row with identical inputs; the value is the
same. -/
def summary_text (subfolder_path : String) (env : Env) (audio_file : String) : String :=
  let file_path := pyJoin subfolder_path audio_file
  let metadata := get_audio_metadata file_path (env.tags file_path) (env.lengths file_path)
  let base_name := (pySplitext audio_file).1
  let html_summary_path := pyJoin subfolder_path (base_name ++ ".html")
  let s := _extract_summary_from_html (env.htmlFiles html_summary_path)
  if s = "" then metadata.title else s

/-- One iteration of the `for audio_file in audio_files` loop: the `<item>`
element with its children in emission order — the description and
`itunes:summary` pairs are each emitted twice, exactly as in the source. -/
def itemFor (subfolder_path repo_owner repo_name : String) (env : Env)
    (audio_file : String) : Xml :=
  let file_path := pyJoin subfolder_path audio_file
  let metadata := get_audio_metadata file_path (env.tags file_path) (env.lengths file_path)
  let s := summary_text subfolder_path env audio_file
  Xml.elem "item" [] none
    [ Xml.elem "title" [] (some metadata.title) []
    , Xml.elem "description" [] (some s) []
    , Xml.elem "itunes:summary" [] (some s) []
    , Xml.elem "description" [] (some s) []
    , Xml.elem "itunes:summary" [] (some s) []
    , Xml.elem "pubDate" [] (some env.now) []
    , Xml.elem "enclosure"
        [ ("url", "https://raw.githubusercontent.com/" ++ repo_owner ++ "/" ++ repo_name
            ++ "/main/" ++ subfolder_path ++ "/" ++ audio_file)
        , ("type", "audio/mpeg")
        , ("length", toString (env.sizes file_path)) ] none []
    , Xml.elem "itunes:duration" [] (some (toString metadata.duration)) [] ]

/-- What a `generate_feed` run that returns normally leaves behind: the
lines it printed, and the XML tree written to `feed.xml` (`none` when the
early `return` fired and no file was written).  Serialization
(`toprettyxml`) is a rendering of this tree and is not modelled. -/
structure GenResult where
  logs : List String
  output : Option Xml

/-- `generate_feed`.  A missing config file takes the early `return`; an
unreadable or unparsable config is an uncaught exception from `open` /
`json.load`, surfacing as `Except.error`. -/
def generate_feed (subfolder_path repo_owner repo_name : String) (env : Env) :
    Except String GenResult :=
  let config_path := pyJoin subfolder_path "config.json"
  match env.config with
  | none => Except.ok { logs := ["Config file not found: " ++ config_path], output := none }
  | some (Except.error e) => Except.error e
  | some (Except.ok config) =>
    let podcast_title := config.title.getD "Podcast"
    let podcast_description := config.description.getD "A podcast"
    let podcast_link := config.link.getD "https://example.com"
    let podcast_language := config.language.getD "en-us"
    let podcast_author := config.author.getD "Unknown"
    let podcast_image := config.image.getD ""
    let audio_files := pySorted (env.audioEntries.filter hasAudioExt)
    let items := audio_files.map (itemFor subfolder_path repo_owner repo_name env)
    let channel := Xml.elem "channel" [] none
      ([ Xml.elem "title" [] (some podcast_title) []
       , Xml.elem "description" [] (some podcast_description) []
       , Xml.elem "link" [] (some podcast_link) []
       , Xml.elem "language" [] (some podcast_language) []
       , Xml.elem "itunes:author" [] (some podcast_author) []
       , Xml.elem "itunes:summary" [] (some podcast_description) [] ]
       ++ (if podcast_image ≠ "" then [Xml.elem "itunes:image" [("href", podcast_image)] none []] else [])
       ++ items)
    let rss := Xml.elem "rss"
      [("version", "2.0"), ("xmlns:itunes", "http://www.itunes.com/dtds/podcast-1.0.dtd")]
      none [channel]
    Except.ok { logs := ["Generated feed: " ++ pyJoin subfolder_path "feed.xml"], output := some rss }

/-- The `<item>` children of a channel element. -/
def itemsOf (channel : Xml) : List Xml :=
  channel.children.filter (fun c => c.tag == "item")

/-- The children of the `<channel>` element a successful `generate_feed`
builds, in emission order. -/
def chanChildren (subfolder_path repo_owner repo_name : String) (env : Env) (config : Config) :
    List Xml :=
  [ Xml.elem "title" [] (some (config.title.getD "Podcast")) []
  , Xml.elem "description" [] (some (config.description.getD "A podcast")) []
  , Xml.elem "link" [] (some (config.link.getD "https://example.com")) []
  , Xml.elem "language" [] (some (config.language.getD "en-us")) []
  , Xml.elem "itunes:author" [] (some (config.author.getD "Unknown")) []
  , Xml.elem "itunes:summary" [] (some (config.description.getD "A podcast")) [] ]
  ++ (if config.image.getD "" ≠ "" then
        [Xml.elem "itunes:image" [("href", config.image.getD "")] none []] else [])
  ++ (pySorted (env.audioEntries.filter hasAudioExt)).map
      (itemFor subfolder_path repo_owner repo_name env)

/-- The all-defaults configuration used by the concrete runs below. -/
def cfg0 : Config := ⟨none, none, none, none, none, none⟩

/-- A concrete environment: directory `pod` listing `b.mp3` before `a.mp3`,
no sibling HTML files, no audio tags. -/
def envSorted : Env :=
  { config := some (Except.ok cfg0)
    audioEntries := ["b.mp3", "a.mp3"]
    htmlFiles := fun _ => none
    tags := fun _ => ⟨none, none, none⟩
    lengths := fun _ => 0
    sizes := fun _ => 0
    now := "Sun, 12 Oct 2025 00:00:00 GMT" }

/-- A concrete environment whose config carries an image URL. -/
def envImage : Env :=
  { config := some (Except.ok ⟨none, none, none, none, none, some "http://x/y.png"⟩)
    audioEntries := []
    htmlFiles := fun _ => none
    tags := fun _ => ⟨none, none, none⟩
    lengths := fun _ => 0
    sizes := fun _ => 0
    now := "Sun, 12 Oct 2025 00:00:00 GMT" }

/-- A concrete environment whose `config.json` exists but is unreadable:
`json.load` raises a `JSONDecodeError`. -/
def envBadConfig : Env :=
  { config := some (Except.error "Expecting value: line 1 column 1 (char 0)")
    audioEntries := []
    htmlFiles := fun _ => none
    tags := fun _ => ⟨none, none, none⟩
    lengths := fun _ => 0
    sizes := fun _ => 0
    now := "Sun, 12 Oct 2025 00:00:00 GMT" }

/-- A concrete environment with no `config.json` at all. -/
def envNoConfig : Env :=
  { config := none
    audioEntries := ["a.mp3"]
    htmlFiles := fun _ => none
    tags := fun _ => ⟨none, none, none⟩
    lengths := fun _ => 0
    sizes := fun _ => 0
    now := "Sun, 12 Oct 2025 00:00:00 GMT" }

/-- Does the event stream hold any start tag lowercasing to `main`?  (The
decidable form of "the HTML contains a `<main>` element".) -/
def hasMainStart (events : List HTMLEvent) : Bool :=
  events.any (fun ev =>
    match ev with
    | .startTag tag _ => pyLower tag == "main"
    | _ => false)

/-- A concrete extractor state inside `main` with one open anchor. -/
def stAnchor : _MainTextExtractor :=
  { _in_main := true, _chunks := ["x"], _anchor_stack := [some "http://x"] }

/-- A concrete environment whose directory holds `episode1.mp3` with a
sibling `episode1.html` whose `<main>` says "Show notes here". -/
def envHtml : Env :=
  { config := some (Except.ok cfg0)
    audioEntries := ["episode1.mp3"]
    htmlFiles := fun p =>
      if p = "pod/episode1.html" then
        some (Except.ok [HTMLEvent.startTag "main" [], HTMLEvent.data "Show notes here",
          HTMLEvent.endTag "main"])
      else none
    tags := fun _ => ⟨none, none, none⟩
    lengths := fun _ => 0
    sizes := fun _ => 0
    now := "Sun, 12 Oct 2025 00:00:00 GMT" }

/-- A line of the normalized output: non-empty, free of `\n`, and with
non-whitespace first and last characters. -/
def GoodLine (l : List Char) : Prop :=
  l ≠ [] ∧ '\n' ∉ l
  ∧ (∀ c, l.head? = some c → pyIsSpace c = false)
  ∧ (∀ c, l.getLast? = some c → pyIsSpace c = false)

/-- Adjacent characters of the normalized output: no whitespace directly
before a newline and none directly after one (in particular no `\n\n`). -/
def cleanAdj (a b : Char) : Prop :=
  ¬(pyIsSpace a = true ∧ b = '\n') ∧ ¬(a = '\n' ∧ pyIsSpace b = true)

/-- Nested block tags around padded text: the raw buffer holds consecutive
blank lines and padded lines, all gone after normalization. -/
def evW : List HTMLEvent :=
  [ .startTag "main" [], .startTag "div" [], .startTag "p" [], .data "  Hello  ",
    .endTag "p", .startTag "p" [], .data "World", .endTag "p", .endTag "div", .endTag "main" ]

theorem feedEvents_show_notes :
    (feedEvents [.startTag "main" [], .data "Show notes here", .endTag "main"]).text
    = "Show notes here" := by decide

theorem feedEvents_hello_world :
    (feedEvents [.startTag "main" [], .startTag "p" [], .data "Hello", .endTag "p",
      .startTag "a" [("href", some "http://x")], .data "world", .endTag "a", .endTag "main"]).text
    = "Hello\nworld (http://x)" := by decide

theorem pySplitext_episode1 : pySplitext "episode1.mp3" = ("episode1", ".mp3") := by decide

theorem pySplitext_bashrc : pySplitext ".bashrc" = (".bashrc", "") := by decide

theorem pySplitext_dotted : pySplitext "pod/a.b.c" = ("pod/a.b", ".c") := by decide

theorem pyLower_a : pyLower "a" = "a" := by decide

/-- C10: every generated `<item>` carries two `description` children and two
`itunes:summary` children, all four with the same summary text. -/
theorem item_description_children_doubled (subfolder_path repo_owner repo_name : String)
    (env : Env) (audio_file : String) :
    ((itemFor subfolder_path repo_owner repo_name env audio_file).children.countP
        (fun c => c.tag == "description") = 2)
    ∧ ((itemFor subfolder_path repo_owner repo_name env audio_file).children.countP
        (fun c => c.tag == "itunes:summary") = 2)
    ∧ (((itemFor subfolder_path repo_owner repo_name env audio_file).children.filter
          (fun c => c.tag == "description" || c.tag == "itunes:summary")).map Xml.text
        = List.replicate 4 (some (summary_text subfolder_path env audio_file))) :=
  ⟨rfl, rfl, rfl⟩

theorem generate_feed_config_ok (subfolder_path repo_owner repo_name : String) (env : Env)
    (cfg : Config) (hc : env.config = some (Except.ok cfg)) :
    generate_feed subfolder_path repo_owner repo_name env = Except.ok
      { logs := ["Generated feed: " ++ pyJoin subfolder_path "feed.xml"]
        output := some (Xml.elem "rss"
          [("version", "2.0"), ("xmlns:itunes", "http://www.itunes.com/dtds/podcast-1.0.dtd")]
          none
          [Xml.elem "channel" [] none
            (chanChildren subfolder_path repo_owner repo_name env cfg)]) } := by
  simp [generate_feed, hc, chanChildren]

theorem itemFor_tag (subfolder_path repo_owner repo_name : String) (env : Env) (f : String) :
    (itemFor subfolder_path repo_owner repo_name env f).tag = "item" := rfl

theorem filter_chanChildren_items (subfolder_path repo_owner repo_name : String) (env : Env)
    (cfg : Config) :
    (chanChildren subfolder_path repo_owner repo_name env cfg).filter (fun c => c.tag == "item")
      = (pySorted (env.audioEntries.filter hasAudioExt)).map
          (itemFor subfolder_path repo_owner repo_name env) := by
  unfold chanChildren
  rw [List.filter_append, List.filter_append, List.filter_map]
  have himg : (if cfg.image.getD "" ≠ "" then
      [Xml.elem "itunes:image" [("href", cfg.image.getD "")] none []] else []).filter
        (fun c => c.tag == "item") = [] := by
    split <;> rfl
  have hmap : List.filter ((fun c => c.tag == "item") ∘
        itemFor subfolder_path repo_owner repo_name env)
      (pySorted (env.audioEntries.filter hasAudioExt))
      = pySorted (env.audioEntries.filter hasAudioExt) :=
    List.filter_eq_self.mpr (fun a _ => rfl)
  rw [himg, hmap]
  simp
  exact ⟨(by decide : ("title" : String) ≠ "item"), (by decide : ("description" : String) ≠ "item"),
    (by decide : ("link" : String) ≠ "item"), (by decide : ("language" : String) ≠ "item"),
    (by decide : ("itunes:author" : String) ≠ "item"),
    (by decide : ("itunes:summary" : String) ≠ "item")⟩

theorem pyCharListLe_iff (as bs : List Char) :
    pyCharListLe as bs = true ↔ ¬ List.Lex (· < ·) bs as := by
  induction as generalizing bs with
  | nil =>
    simp [pyCharListLe, List.Lex.not_nil_right]
  | cons a as ih =>
    cases bs with
    | nil =>
      simp only [pyCharListLe, Bool.false_eq_true, false_iff, not_not]
      exact List.Lex.nil
    | cons b bs =>
      unfold pyCharListLe
      rcases lt_trichotomy a b with hab | hab | hab
      · simp only [if_pos hab, true_iff]
        intro hlex
        cases hlex with
        | rel h => exact absurd hab (lt_asymm h)
        | cons h => exact absurd hab (lt_irrefl a)
      · subst hab
        rw [if_neg (lt_irrefl a), if_pos (show a = a from rfl), ih bs]
        constructor
        · intro h hlex
          cases hlex with
          | rel hr => exact absurd hr (lt_irrefl a)
          | cons htail => exact h htail
        · exact fun h htail => h (List.Lex.cons htail)
      · have hne : a ≠ b := ne_of_gt hab
        simp only [if_neg (not_lt_of_gt hab), if_neg hne, Bool.false_eq_true, false_iff, not_not]
        exact List.Lex.rel hab

theorem pyStrLe_iff_le (a b : String) : pyStrLe a b = true ↔ a ≤ b := by
  rw [String.le_iff_toList_le]
  rw [show (a.toList ≤ b.toList) ↔ ¬ (b.toList < a.toList) from not_lt.symm]
  show pyCharListLe a.data b.data = true ↔ ¬ b.toList < a.toList
  rw [pyCharListLe_iff]
  exact Iff.rfl

theorem mem_pySorted_audio (l : List String) (f : String) :
    f ∈ pySorted (l.filter hasAudioExt) ↔ (f ∈ l ∧ hasAudioExt f = true) := by
  unfold pySorted
  rw [List.mem_insertionSort]
  simp [List.mem_filter]

/-- C2: with a readable config, the feed holds exactly one `<item>` per
directory entry ending in `.mp3` / `.m4a` / `.wav`, in ascending
lexicographic filename order. -/
theorem feed_items_sorted_audio_files (subfolder_path repo_owner repo_name : String)
    (env : Env) (cfg : Config) (hc : env.config = some (Except.ok cfg)) :
    ∃ res channel,
      generate_feed subfolder_path repo_owner repo_name env = Except.ok res
      ∧ res.output = some (Xml.elem "rss"
          [("version", "2.0"), ("xmlns:itunes", "http://www.itunes.com/dtds/podcast-1.0.dtd")]
          none [channel])
      ∧ itemsOf channel
          = (pySorted (env.audioEntries.filter hasAudioExt)).map
              (itemFor subfolder_path repo_owner repo_name env)
      ∧ List.Sorted (fun a b : String => a ≤ b) (pySorted (env.audioEntries.filter hasAudioExt))
      ∧ ∀ f, f ∈ pySorted (env.audioEntries.filter hasAudioExt)
          ↔ (f ∈ env.audioEntries ∧ hasAudioExt f = true) := by
  refine ⟨_, _, generate_feed_config_ok subfolder_path repo_owner repo_name env cfg hc, rfl,
    ?_, ?_, ?_⟩
  · show (chanChildren subfolder_path repo_owner repo_name env cfg).filter _ = _
    exact filter_chanChildren_items subfolder_path repo_owner repo_name env cfg
  · haveI : IsTotal String (fun a b => pyStrLe a b = true) :=
      ⟨fun a b => by
        rw [pyStrLe_iff_le, pyStrLe_iff_le]
        exact le_total a b⟩
    haveI : IsTrans String (fun a b => pyStrLe a b = true) :=
      ⟨fun a b c hab hbc => by
        rw [pyStrLe_iff_le] at hab hbc ⊢
        exact le_trans hab hbc⟩
    exact (List.sorted_insertionSort _ _).imp (fun h => (pyStrLe_iff_le _ _).mp h)
  · exact fun f => mem_pySorted_audio env.audioEntries f

theorem feed_items_sorted_audio_files_witness :
    ∃ res channel,
      generate_feed "pod" "owner" "repo" envSorted = Except.ok res
      ∧ res.output = some (Xml.elem "rss"
          [("version", "2.0"), ("xmlns:itunes", "http://www.itunes.com/dtds/podcast-1.0.dtd")]
          none [channel])
      ∧ itemsOf channel
          = (pySorted (envSorted.audioEntries.filter hasAudioExt)).map
              (itemFor "pod" "owner" "repo" envSorted)
      ∧ List.Sorted (fun a b : String => a ≤ b)
          (pySorted (envSorted.audioEntries.filter hasAudioExt))
      ∧ ∀ f, f ∈ pySorted (envSorted.audioEntries.filter hasAudioExt)
          ↔ (f ∈ envSorted.audioEntries ∧ hasAudioExt f = true) :=
  feed_items_sorted_audio_files "pod" "owner" "repo" envSorted cfg0 rfl

/-- In the concrete run, the sorted file list is `a.mp3` before `b.mp3`. -/
theorem pySorted_ab : pySorted (envSorted.audioEntries.filter hasAudioExt) = ["a.mp3", "b.mp3"] := by decide

/-- C8: every `<item>` of a generated feed has exactly one enclosure, whose
`url` is the raw-githubusercontent template instantiated at owner, repo,
branch `main`, subfolder and filename, whose `type` is always `audio/mpeg`,
and whose `length` is the file's byte size on disk. -/
theorem enclosure_url_type_length (subfolder_path repo_owner repo_name : String)
    (env : Env) (cfg : Config) (hc : env.config = some (Except.ok cfg)) :
    ∃ res channel,
      generate_feed subfolder_path repo_owner repo_name env = Except.ok res
      ∧ res.output = some (Xml.elem "rss"
          [("version", "2.0"), ("xmlns:itunes", "http://www.itunes.com/dtds/podcast-1.0.dtd")]
          none [channel])
      ∧ ∀ it ∈ itemsOf channel, ∃ f, f ∈ env.audioEntries ∧ hasAudioExt f = true
          ∧ it.children.filter (fun c => c.tag == "enclosure")
            = [Xml.elem "enclosure"
                [ ("url", "https://raw.githubusercontent.com/" ++ repo_owner ++ "/" ++ repo_name
                    ++ "/main/" ++ subfolder_path ++ "/" ++ f)
                , ("type", "audio/mpeg")
                , ("length", toString (env.sizes (pyJoin subfolder_path f))) ] none []] := by
  refine ⟨_, _, generate_feed_config_ok subfolder_path repo_owner repo_name env cfg hc, rfl, ?_⟩
  intro it hit
  rw [show itemsOf (Xml.elem "channel" [] none
        (chanChildren subfolder_path repo_owner repo_name env cfg))
      = (pySorted (env.audioEntries.filter hasAudioExt)).map
          (itemFor subfolder_path repo_owner repo_name env) from
    filter_chanChildren_items subfolder_path repo_owner repo_name env cfg] at hit
  obtain ⟨f, hf, rfl⟩ := List.mem_map.mp hit
  obtain ⟨hmem, hext⟩ := (mem_pySorted_audio env.audioEntries f).mp hf
  exact ⟨f, hmem, hext, rfl⟩

theorem enclosure_url_type_length_witness :
    ∃ res channel,
      generate_feed "pod" "owner" "repo" envSorted = Except.ok res
      ∧ res.output = some (Xml.elem "rss"
          [("version", "2.0"), ("xmlns:itunes", "http://www.itunes.com/dtds/podcast-1.0.dtd")]
          none [channel])
      ∧ ∀ it ∈ itemsOf channel, ∃ f, f ∈ envSorted.audioEntries ∧ hasAudioExt f = true
          ∧ it.children.filter (fun c => c.tag == "enclosure")
            = [Xml.elem "enclosure"
                [ ("url", "https://raw.githubusercontent.com/owner/repo/main/pod/" ++ f)
                , ("type", "audio/mpeg")
                , ("length", toString (envSorted.sizes (pyJoin "pod" f))) ] none []] :=
  enclosure_url_type_length "pod" "owner" "repo" envSorted cfg0 rfl

theorem filter_map_itemFor_nil (subfolder_path repo_owner repo_name : String) (env : Env)
    (files : List String) (p : Xml → Bool)
    (hp : ∀ f, p (itemFor subfolder_path repo_owner repo_name env f) = false) :
    (files.map (itemFor subfolder_path repo_owner repo_name env)).filter p = [] := by
  rw [List.filter_map, List.filter_eq_nil_iff.mpr (fun a _ => by simp [Function.comp, hp]),
    List.map_nil]

theorem filter_chanChildren_not_item (subfolder_path repo_owner repo_name : String) (env : Env)
    (cfg : Config) (p : Xml → Bool)
    (hp : ∀ f, p (itemFor subfolder_path repo_owner repo_name env f) = false) :
    (chanChildren subfolder_path repo_owner repo_name env cfg).filter p
      = ([ Xml.elem "title" [] (some (cfg.title.getD "Podcast")) []
         , Xml.elem "description" [] (some (cfg.description.getD "A podcast")) []
         , Xml.elem "link" [] (some (cfg.link.getD "https://example.com")) []
         , Xml.elem "language" [] (some (cfg.language.getD "en-us")) []
         , Xml.elem "itunes:author" [] (some (cfg.author.getD "Unknown")) []
         , Xml.elem "itunes:summary" [] (some (cfg.description.getD "A podcast")) [] ].filter p)
        ++ ((if cfg.image.getD "" ≠ "" then
              [Xml.elem "itunes:image" [("href", cfg.image.getD "")] none []] else []).filter p) := by
  unfold chanChildren
  rw [List.filter_append, List.filter_append,
    filter_map_itemFor_nil subfolder_path repo_owner repo_name env _ p hp, List.append_nil]

/-- C7: each missing config field takes its stated default, a missing
`image` key yields no channel `itunes:image` element, and
`image = "http://x/y.png"` yields exactly one with that `href`. -/
theorem config_defaults_and_image (subfolder_path repo_owner repo_name : String) (env : Env)
    (cfg : Config) (hc : env.config = some (Except.ok cfg)) :
    ∃ res channel,
      generate_feed subfolder_path repo_owner repo_name env = Except.ok res
      ∧ res.output = some (Xml.elem "rss"
          [("version", "2.0"), ("xmlns:itunes", "http://www.itunes.com/dtds/podcast-1.0.dtd")]
          none [channel])
      ∧ channel.children.filter (fun c => c.tag == "title")
          = [Xml.elem "title" [] (some (cfg.title.getD "Podcast")) []]
      ∧ channel.children.filter (fun c => c.tag == "description")
          = [Xml.elem "description" [] (some (cfg.description.getD "A podcast")) []]
      ∧ channel.children.filter (fun c => c.tag == "link")
          = [Xml.elem "link" [] (some (cfg.link.getD "https://example.com")) []]
      ∧ channel.children.filter (fun c => c.tag == "language")
          = [Xml.elem "language" [] (some (cfg.language.getD "en-us")) []]
      ∧ channel.children.filter (fun c => c.tag == "itunes:author")
          = [Xml.elem "itunes:author" [] (some (cfg.author.getD "Unknown")) []]
      ∧ (cfg.image = none →
          channel.children.filter (fun c => c.tag == "itunes:image") = [])
      ∧ (cfg.image = some "http://x/y.png" →
          channel.children.filter (fun c => c.tag == "itunes:image")
            = [Xml.elem "itunes:image" [("href", "http://x/y.png")] none []]) := by
  refine ⟨_, _, generate_feed_config_ok subfolder_path repo_owner repo_name env cfg hc, rfl,
    ?_, ?_, ?_, ?_, ?_, ?_, ?_⟩
  · rw [show (Xml.elem "channel" [] none
        (chanChildren subfolder_path repo_owner repo_name env cfg)).children
      = chanChildren subfolder_path repo_owner repo_name env cfg from rfl,
      filter_chanChildren_not_item subfolder_path repo_owner repo_name env cfg _ (fun f => rfl)]
    split <;> rfl
  · rw [show (Xml.elem "channel" [] none
        (chanChildren subfolder_path repo_owner repo_name env cfg)).children
      = chanChildren subfolder_path repo_owner repo_name env cfg from rfl,
      filter_chanChildren_not_item subfolder_path repo_owner repo_name env cfg _ (fun f => rfl)]
    split <;> rfl
  · rw [show (Xml.elem "channel" [] none
        (chanChildren subfolder_path repo_owner repo_name env cfg)).children
      = chanChildren subfolder_path repo_owner repo_name env cfg from rfl,
      filter_chanChildren_not_item subfolder_path repo_owner repo_name env cfg _ (fun f => rfl)]
    split <;> rfl
  · rw [show (Xml.elem "channel" [] none
        (chanChildren subfolder_path repo_owner repo_name env cfg)).children
      = chanChildren subfolder_path repo_owner repo_name env cfg from rfl,
      filter_chanChildren_not_item subfolder_path repo_owner repo_name env cfg _ (fun f => rfl)]
    split <;> rfl
  · rw [show (Xml.elem "channel" [] none
        (chanChildren subfolder_path repo_owner repo_name env cfg)).children
      = chanChildren subfolder_path repo_owner repo_name env cfg from rfl,
      filter_chanChildren_not_item subfolder_path repo_owner repo_name env cfg _ (fun f => rfl)]
    split <;> rfl
  · intro himg
    rw [show (Xml.elem "channel" [] none
        (chanChildren subfolder_path repo_owner repo_name env cfg)).children
      = chanChildren subfolder_path repo_owner repo_name env cfg from rfl,
      filter_chanChildren_not_item subfolder_path repo_owner repo_name env cfg _ (fun f => rfl),
      himg]
    rfl
  · intro himg
    rw [show (Xml.elem "channel" [] none
        (chanChildren subfolder_path repo_owner repo_name env cfg)).children
      = chanChildren subfolder_path repo_owner repo_name env cfg from rfl,
      filter_chanChildren_not_item subfolder_path repo_owner repo_name env cfg _ (fun f => rfl),
      himg]
    rfl

theorem config_defaults_and_image_witness :
    ∃ res channel,
      generate_feed "pod" "owner" "repo" envImage = Except.ok res
      ∧ res.output = some (Xml.elem "rss"
          [("version", "2.0"), ("xmlns:itunes", "http://www.itunes.com/dtds/podcast-1.0.dtd")]
          none [channel])
      ∧ channel.children.filter (fun c => c.tag == "title")
          = [Xml.elem "title" [] (some "Podcast") []]
      ∧ channel.children.filter (fun c => c.tag == "description")
          = [Xml.elem "description" [] (some "A podcast") []]
      ∧ channel.children.filter (fun c => c.tag == "link")
          = [Xml.elem "link" [] (some "https://example.com") []]
      ∧ channel.children.filter (fun c => c.tag == "language")
          = [Xml.elem "language" [] (some "en-us") []]
      ∧ channel.children.filter (fun c => c.tag == "itunes:author")
          = [Xml.elem "itunes:author" [] (some "Unknown") []]
      ∧ ((⟨none, none, none, none, none, some "http://x/y.png"⟩ : Config).image = none →
          channel.children.filter (fun c => c.tag == "itunes:image") = [])
      ∧ ((⟨none, none, none, none, none, some "http://x/y.png"⟩ : Config).image
            = some "http://x/y.png" →
          channel.children.filter (fun c => c.tag == "itunes:image")
            = [Xml.elem "itunes:image" [("href", "http://x/y.png")] none []]) :=
  config_defaults_and_image "pod" "owner" "repo" envImage
    ⟨none, none, none, none, none, some "http://x/y.png"⟩ rfl

/-- C9, counterexample: with an existing but unreadable `config.json`, the
run does not log-and-return — the exception from `json.load` propagates out
of `generate_feed`, because only `os.path.exists` is checked. -/
theorem unreadable_config_propagates :
    generate_feed "pod" "owner" "repo" envBadConfig
      = Except.error "Expecting value: line 1 column 1 (char 0)" := rfl

/-- C9, amended: when `config.json` is MISSING, generation for the subfolder
logs the diagnostic and returns normally without writing any output. -/
theorem missing_config_logs_and_returns (subfolder_path repo_owner repo_name : String)
    (env : Env) (hc : env.config = none) :
    generate_feed subfolder_path repo_owner repo_name env
      = Except.ok { logs := ["Config file not found: " ++ pyJoin subfolder_path "config.json"]
                    output := none } := by
  simp [generate_feed, hc]

theorem missing_config_logs_and_returns_witness :
    generate_feed "pod" "owner" "repo" envNoConfig
      = Except.ok { logs := ["Config file not found: pod/config.json"], output := none } :=
  (missing_config_logs_and_returns "pod" "owner" "repo" envNoConfig rfl).trans rfl

theorem applyEvent_outside_main (st : _MainTextExtractor) (ev : HTMLEvent)
    (hin : st._in_main = false)
    (hev : (match ev with
      | HTMLEvent.startTag tag _ => pyLower tag == "main"
      | _ => false) = false) :
    (applyEvent st ev)._in_main = false ∧ (applyEvent st ev)._chunks = st._chunks := by
  cases ev with
  | startTag tag attrs =>
    simp only at hev
    simp [applyEvent, _MainTextExtractor.handle_starttag, hev, hin]
  | endTag tag =>
    simp only [applyEvent, _MainTextExtractor.handle_endtag, hin]
    split <;> simp [hin]
  | data s =>
    simp [applyEvent, _MainTextExtractor.handle_data, hin]

theorem foldl_outside_main (events : List HTMLEvent) (st : _MainTextExtractor)
    (h : hasMainStart events = false) (hin : st._in_main = false) :
    (events.foldl applyEvent st)._in_main = false
    ∧ (events.foldl applyEvent st)._chunks = st._chunks := by
  induction events generalizing st with
  | nil => exact ⟨hin, rfl⟩
  | cons ev evs ih =>
    rw [hasMainStart, List.any_cons, Bool.or_eq_false_iff] at h
    obtain ⟨h1, h2⟩ := h
    obtain ⟨hin', hch⟩ := applyEvent_outside_main st ev hin h1
    rw [List.foldl_cons]
    obtain ⟨ha, hb⟩ := ih (applyEvent st ev) h2 hin'
    exact ⟨ha, hb.trans hch⟩

theorem text_of_chunks_nil (st : _MainTextExtractor) (h : st._chunks = []) :
    st.text = "" := by
  unfold _MainTextExtractor.text
  rw [h]
  rfl

/-- C3: the summary extraction returns the empty string for an absent file,
for any read/parse exception, and for any HTML without a `<main>` start
tag; totality of the embedding reflects that no exception escapes. -/
theorem extract_summary_swallows_failures (e : String) (events : List HTMLEvent)
    (h : hasMainStart events = false) :
    _extract_summary_from_html none = ""
    ∧ _extract_summary_from_html (some (Except.error e)) = ""
    ∧ _extract_summary_from_html (some (Except.ok events)) = "" := by
  refine ⟨rfl, rfl, ?_⟩
  show (feedEvents events).text = ""
  exact text_of_chunks_nil _ (foldl_outside_main events initExtractor h rfl).2

theorem extract_summary_swallows_failures_witness :
    _extract_summary_from_html none = ""
    ∧ _extract_summary_from_html (some (Except.error "not utf-8")) = ""
    ∧ _extract_summary_from_html (some (Except.ok
        [HTMLEvent.startTag "p" [], HTMLEvent.data "no main here",
         HTMLEvent.endTag "p"])) = "" :=
  extract_summary_swallows_failures "not utf-8"
    [HTMLEvent.startTag "p" [], HTMLEvent.data "no main here", HTMLEvent.endTag "p"]
    (by decide)

theorem startBlockTags_nmem_a : "a" ∉ startBlockTags := by decide

theorem endBlockTags_nmem_a : "a" ∉ endBlockTags := by decide

theorem startBlockTags_nmem_main : "main" ∉ startBlockTags := by decide

theorem endBlockTags_nmem_main : "main" ∉ endBlockTags := by decide

/-- C5: inside `main`, an opening `<a>` pushes its `href` (or the absent
marker) onto the stack; a closing `</a>` pops the most recent entry and
emits `" (href)"` only for a non-empty recorded href; an anchor without
`href` records the absent marker and yields no suffix; a stray `</a>` with
an empty stack leaves the state unchanged (no crash). -/
theorem anchor_stack_push_pop (st : _MainTextExtractor)
    (attrs : List (String × Option String)) (h : st._in_main = true) :
    (st.handle_starttag "a" attrs)._anchor_stack = st._anchor_stack ++ [findHref attrs]
    ∧ (∀ rest hr, st._anchor_stack = rest ++ [some hr] → hr ≠ "" →
        st.handle_endtag "a"
          = { st with _anchor_stack := rest, _chunks := st._chunks ++ [" (" ++ hr ++ ")"] })
    ∧ (∀ rest, st._anchor_stack = rest ++ [none] →
        st.handle_endtag "a" = { st with _anchor_stack := rest })
    ∧ (∀ rest, st._anchor_stack = rest ++ [some ""] →
        st.handle_endtag "a" = { st with _anchor_stack := rest })
    ∧ (st._anchor_stack = [] → st.handle_endtag "a" = st)
    ∧ (∀ attrs2 : List (String × Option String),
        (attrs2.all fun kv => !(pyLower kv.1 == "href")) = true → findHref attrs2 = none) := by
  refine ⟨?_, ?_, ?_, ?_, ?_, ?_⟩
  · simp [_MainTextExtractor.handle_starttag, pyLower_a, startBlockTags_nmem_a, h]
  · intro rest hr hstack hne
    simp [_MainTextExtractor.handle_endtag, pyLower_a, endBlockTags_nmem_a, h, hstack,
      List.getLast?_concat, List.dropLast_concat, hne]
  · intro rest hstack
    simp [_MainTextExtractor.handle_endtag, pyLower_a, endBlockTags_nmem_a, h, hstack,
      List.getLast?_concat, List.dropLast_concat]
  · intro rest hstack
    simp [_MainTextExtractor.handle_endtag, pyLower_a, endBlockTags_nmem_a, h, hstack,
      List.getLast?_concat, List.dropLast_concat]
  · intro hstack
    simp [_MainTextExtractor.handle_endtag, pyLower_a, endBlockTags_nmem_a, h, hstack]
  · intro attrs2 hall
    have hnone : attrs2.find? (fun kv => pyLower kv.1 == "href") = none :=
      List.find?_eq_none.mpr (fun kv hkv => by
        have h2 := List.all_eq_true.mp hall kv hkv
        simpa using h2)
    simp [findHref, hnone]

theorem anchor_stack_push_pop_witness :
    (stAnchor.handle_starttag "a" [("href", some "u")])._anchor_stack
        = [some "http://x", some "u"]
    ∧ stAnchor.handle_endtag "a"
        = { stAnchor with _anchor_stack := [], _chunks := ["x", " (http://x)"] } :=
  ⟨((anchor_stack_push_pop stAnchor [("href", some "u")] rfl).1).trans rfl,
   (((anchor_stack_push_pop stAnchor [("href", some "u")] rfl).2.1) [] "http://x" rfl
      (by decide)).trans rfl⟩

/-- C6: any start tag lowercasing to `main` turns capture on and any such
end tag turns it off (a boolean, not a depth); while capture is off, no
handler adds to the output buffer — text is drawn only from inside
`main`. -/
theorem main_flag_gates_capture (st : _MainTextExtractor) (tag s : String)
    (attrs : List (String × Option String)) :
    (pyLower tag = "main" →
      (st.handle_starttag tag attrs)._in_main = true
      ∧ (st.handle_endtag tag)._in_main = false)
    ∧ (st._in_main = false →
      (st.handle_data s)._chunks = st._chunks
      ∧ (st.handle_endtag tag)._chunks = st._chunks
      ∧ (st.handle_starttag tag attrs)._chunks = st._chunks)
    ∧ (st._in_main = true → (st.handle_data s)._chunks = st._chunks ++ [s]) := by
  refine ⟨?_, ?_, fun h => by simp [_MainTextExtractor.handle_data, h]⟩
  · intro hmain
    constructor
    · simp [_MainTextExtractor.handle_starttag, hmain, startBlockTags_nmem_main]
    · simp [_MainTextExtractor.handle_endtag, hmain, endBlockTags_nmem_main]
  · intro hin
    refine ⟨?_, ?_, ?_⟩
    · simp [_MainTextExtractor.handle_data, hin]
    · unfold _MainTextExtractor.handle_endtag
      simp only [hin, Bool.false_and, Bool.false_eq_true, if_false]
      split <;> rfl
    · by_cases hm : pyLower tag = "main"
      · simp [_MainTextExtractor.handle_starttag, hm, hin, startBlockTags_nmem_main]
      · have hm' : (pyLower tag == "main") = false := by
          simpa using hm
        simp [_MainTextExtractor.handle_starttag, hm', hin]

theorem main_flag_gates_capture_witness :
    ((initExtractor.handle_starttag "MAIN" [])._in_main = true)
    ∧ ((initExtractor.handle_data "x")._chunks = initExtractor._chunks)
    ∧ ((stAnchor.handle_data "y")._chunks = stAnchor._chunks ++ ["y"]) :=
  ⟨((main_flag_gates_capture initExtractor "MAIN" "x" []).1 (by decide)).1,
   ((main_flag_gates_capture initExtractor "MAIN" "x" []).2.1 rfl).1,
   (main_flag_gates_capture stAnchor "MAIN" "y" []).2.2 rfl⟩

/-- C1: when the sibling HTML extraction is non-empty it becomes the text of
every `description` / `itunes:summary` child of the item; otherwise the
tag-derived title does, and that title is the filename stem when no title
tag is present. -/
theorem description_from_html_or_title (subfolder_path repo_owner repo_name : String)
    (env : Env) (audio_file : String) :
    (_extract_summary_from_html (env.htmlFiles
        (pyJoin subfolder_path ((pySplitext audio_file).1 ++ ".html"))) ≠ "" →
      ∀ c ∈ (itemFor subfolder_path repo_owner repo_name env audio_file).children,
        (c.tag == "description" || c.tag == "itunes:summary") = true →
        c.text = some (_extract_summary_from_html (env.htmlFiles
          (pyJoin subfolder_path ((pySplitext audio_file).1 ++ ".html")))))
    ∧ (_extract_summary_from_html (env.htmlFiles
        (pyJoin subfolder_path ((pySplitext audio_file).1 ++ ".html"))) = "" →
      ∀ c ∈ (itemFor subfolder_path repo_owner repo_name env audio_file).children,
        (c.tag == "description" || c.tag == "itunes:summary") = true →
        c.text = some (get_audio_metadata (pyJoin subfolder_path audio_file)
          (env.tags (pyJoin subfolder_path audio_file))
          (env.lengths (pyJoin subfolder_path audio_file))).title)
    ∧ ((env.tags (pyJoin subfolder_path audio_file)).title = none →
        (get_audio_metadata (pyJoin subfolder_path audio_file)
          (env.tags (pyJoin subfolder_path audio_file))
          (env.lengths (pyJoin subfolder_path audio_file))).title
        = (pySplitext (pyBasename (pyJoin subfolder_path audio_file))).1) := by
  refine ⟨?_, ?_, ?_⟩
  · intro hne c hc htag
    have hsum : summary_text subfolder_path env audio_file
        = _extract_summary_from_html (env.htmlFiles
            (pyJoin subfolder_path ((pySplitext audio_file).1 ++ ".html"))) := by
      unfold summary_text
      rw [if_neg hne]
    simp only [itemFor, Xml.children, List.mem_cons, List.not_mem_nil, or_false] at hc
    rcases hc with rfl | rfl | rfl | rfl | rfl | rfl | rfl | rfl
    · exact Bool.noConfusion htag
    · exact congrArg some hsum
    · exact congrArg some hsum
    · exact congrArg some hsum
    · exact congrArg some hsum
    · exact Bool.noConfusion htag
    · exact Bool.noConfusion htag
    · exact Bool.noConfusion htag
  · intro h0 c hc htag
    have hsum : summary_text subfolder_path env audio_file
        = (get_audio_metadata (pyJoin subfolder_path audio_file)
            (env.tags (pyJoin subfolder_path audio_file))
            (env.lengths (pyJoin subfolder_path audio_file))).title := by
      unfold summary_text
      rw [if_pos h0]
    simp only [itemFor, Xml.children, List.mem_cons, List.not_mem_nil, or_false] at hc
    rcases hc with rfl | rfl | rfl | rfl | rfl | rfl | rfl | rfl
    · exact Bool.noConfusion htag
    · exact congrArg some hsum
    · exact congrArg some hsum
    · exact congrArg some hsum
    · exact congrArg some hsum
    · exact Bool.noConfusion htag
    · exact Bool.noConfusion htag
    · exact Bool.noConfusion htag
  · intro ht
    unfold get_audio_metadata
    rw [ht]
    rfl

theorem description_from_html_or_title_witness :
    (Xml.elem "description" [] (some (summary_text "pod" envHtml "episode1.mp3")) []).text
        = some "Show notes here"
    ∧ (Xml.elem "description" [] (some (summary_text "pod" envSorted "a.mp3")) []).text
        = some "a"
    ∧ (get_audio_metadata (pyJoin "pod" "a.mp3") (envSorted.tags (pyJoin "pod" "a.mp3"))
        (envSorted.lengths (pyJoin "pod" "a.mp3"))).title = "a" :=
  ⟨(description_from_html_or_title "pod" "owner" "repo" envHtml "episode1.mp3").1 (by decide)
      (Xml.elem "description" [] (some (summary_text "pod" envHtml "episode1.mp3")) [])
      (by simp [itemFor, Xml.children]) rfl,
   (description_from_html_or_title "pod" "owner" "repo" envSorted "a.mp3").2.1 rfl
      (Xml.elem "description" [] (some (summary_text "pod" envSorted "a.mp3")) [])
      (by simp [itemFor, Xml.children]) rfl,
   (description_from_html_or_title "pod" "owner" "repo" envSorted "a.mp3").2.2 rfl⟩

theorem head_dropWhile_not {α : Type} (p : α → Bool) (l : List α) {c : α}
    (h : (l.dropWhile p).head? = some c) : p c = false := by
  induction l with
  | nil => simp [List.dropWhile] at h
  | cons a t ih =>
    rw [List.dropWhile_cons] at h
    by_cases hp : p a = true
    · rw [if_pos hp] at h
      exact ih h
    · rw [if_neg hp] at h
      simp only [List.head?_cons, Option.some.injEq] at h
      subst h
      exact Bool.not_eq_true _ ▸ hp

theorem getLast_rdropWhile_not {α : Type} (p : α → Bool) (l : List α) {c : α}
    (h : (List.rdropWhile p l).getLast? = some c) : p c = false := by
  have hne : List.rdropWhile p l ≠ [] := by
    intro h0
    rw [h0] at h
    simp at h
  have hlast := List.rdropWhile_last_not (p := p) (l := l) hne
  rw [List.getLast?_eq_getLast _ hne] at h
  simp only [Option.some.injEq] at h
  subst h
  exact Bool.not_eq_true _ ▸ hlast

theorem pyStripL_head {l : List Char} {c : Char} (h : (pyStripL l).head? = some c) :
    pyIsSpace c = false := by
  unfold pyStripL at h
  obtain ⟨t, ht⟩ := List.rdropWhile_prefix pyIsSpace (List.dropWhile pyIsSpace l)
  have hd : (List.dropWhile pyIsSpace l).head? = some c := by
    rw [← ht, List.head?_append, h]
    rfl
  exact head_dropWhile_not pyIsSpace l hd

theorem pyStripL_last {l : List Char} {c : Char} (h : (pyStripL l).getLast? = some c) :
    pyIsSpace c = false :=
  getLast_rdropWhile_not pyIsSpace _ h

theorem pyStripL_sublist (l : List Char) : List.Sublist (pyStripL l) l :=
  (( List.rdropWhile_prefix pyIsSpace (List.dropWhile pyIsSpace l)).sublist).trans
    ((List.dropWhile_suffix pyIsSpace).sublist)

theorem mem_pySplitlinesGo_no_break (cs : List Char) (afterCR : Bool) (acc : List Char)
    (hacc : ∀ c ∈ acc, isLineBreak c = false) :
    ∀ l ∈ pySplitlinesGo cs afterCR acc, ∀ c ∈ l, isLineBreak c = false := by
  induction cs generalizing afterCR acc with
  | nil =>
    intro l hl
    simp only [pySplitlinesGo] at hl
    split at hl
    · simp at hl
    · simp only [List.mem_singleton] at hl
      subst hl
      intro c hc
      exact hacc c (List.mem_reverse.mp hc)
  | cons a rest ih =>
    intro l hl
    simp only [pySplitlinesGo] at hl
    split at hl
    · exact ih false acc hacc l hl
    · split at hl
      · rcases List.mem_cons.mp hl with rfl | hl'
        · exact fun c hc => hacc c (List.mem_reverse.mp hc)
        · exact ih true [] (by simp) l hl'
      · split at hl
        · rcases List.mem_cons.mp hl with rfl | hl'
          · exact fun c hc => hacc c (List.mem_reverse.mp hc)
          · exact ih false [] (by simp) l hl'
        · refine ih false (a :: acc) ?_ l hl
          intro c hc
          rcases List.mem_cons.mp hc with rfl | hc'
          · rename_i hbr
            exact Bool.not_eq_true _ ▸ hbr
          · exact hacc c hc'

theorem chain'_of_no_newline (l : List Char) (h : '\n' ∉ l) : List.Chain' cleanAdj l := by
  induction l with
  | nil => exact List.chain'_nil
  | cons a t ih =>
    have ha : a ≠ '\n' := fun hc => h (hc ▸ List.mem_cons_self a t)
    have ht : '\n' ∉ t := fun hc => h (List.mem_cons_of_mem a hc)
    cases t with
    | nil => exact List.chain'_singleton a
    | cons b t2 =>
      have hb : b ≠ '\n' := fun hc => ht (hc ▸ List.mem_cons_self b t2)
      exact List.chain'_cons.mpr ⟨⟨fun hx => hb hx.2, fun hx => ha hx.1⟩, ih ht⟩

theorem intercalate_cons_cons {α : Type} (s : List α) (x y : List α) (zs : List (List α)) :
    List.intercalate s (x :: y :: zs) = x ++ s ++ List.intercalate s (y :: zs) := by
  simp [List.intercalate, List.intersperse, List.flatten, List.append_assoc]

theorem intercalate_singleton {α : Type} (s : List α) (x : List α) :
    List.intercalate s [x] = x := by
  simp [List.intercalate, List.intersperse, List.flatten]

theorem head?_intercalate_cons (l : List Char) (ls : List (List Char)) (hne : l ≠ []) :
    (List.intercalate ['\n'] (l :: ls)).head? = l.head? := by
  obtain ⟨a, t, rfl⟩ := List.exists_cons_of_ne_nil hne
  cases ls with
  | nil => rw [intercalate_singleton]
  | cons l' ls' =>
    rw [intercalate_cons_cons]
    simp

theorem intercalate_good_props (ls : List (List Char)) (h : ∀ l ∈ ls, GoodLine l) :
    List.Chain' cleanAdj (List.intercalate ['\n'] ls)
    ∧ (∀ c, (List.intercalate ['\n'] ls).head? = some c → pyIsSpace c = false)
    ∧ (∀ c, (List.intercalate ['\n'] ls).getLast? = some c → pyIsSpace c = false) := by
  induction ls with
  | nil =>
    refine ⟨List.chain'_nil, ?_, ?_⟩ <;> intro c hc <;> simp [List.intercalate] at hc
  | cons l ls ih =>
    obtain ⟨hne, hnn, hhead, hlast⟩ := h l (List.mem_cons_self l ls)
    cases ls with
    | nil =>
      rw [intercalate_singleton]
      exact ⟨chain'_of_no_newline l hnn, hhead, hlast⟩
    | cons l' ls' =>
      have hrest := ih (fun x hx => h x (List.mem_cons_of_mem l hx))
      obtain ⟨hch, hhd, hlst⟩ := hrest
      have hne' : l' ≠ [] := (h l' (List.mem_cons_of_mem l (List.mem_cons_self l' ls'))).1
      have hrest_ne : List.intercalate ['\n'] (l' :: ls') ≠ [] := by
        intro h0
        have := head?_intercalate_cons l' ls' hne'
        rw [h0] at this
        obtain ⟨a, t, rfl⟩ := List.exists_cons_of_ne_nil hne'
        simp at this
      rw [intercalate_cons_cons, List.append_assoc]
      have hsplit : (['\n'] ++ List.intercalate ['\n'] (l' :: ls'))
          = '\n' :: List.intercalate ['\n'] (l' :: ls') := rfl
      refine ⟨?_, ?_, ?_⟩
      · rw [List.chain'_append]
        refine ⟨chain'_of_no_newline l hnn, ?_, ?_⟩
        · rw [hsplit]
          refine List.chain'_cons'.mpr ⟨?_, hch⟩
          intro y hy
          have hys : pyIsSpace y = false := hhd y hy
          constructor
          · intro hx
            rw [hx.2] at hys
            exact absurd hys (by decide)
          · intro hx
            rw [hx.2] at hys
            exact Bool.noConfusion hys
        · intro x hx y hy
          rw [hsplit, List.head?_cons] at hy
          rw [Option.mem_def, Option.some.injEq] at hy
          subst hy
          have hxs : pyIsSpace x = false := hlast x (Option.mem_def.mp hx)
          constructor
          · intro hc
            rw [hc.1] at hxs
            exact Bool.noConfusion hxs
          · intro hc
            rw [hc.1] at hxs
            exact absurd hxs (by decide)
      · intro c hc
        rw [List.head?_append] at hc
        obtain ⟨a, t, rfl⟩ := List.exists_cons_of_ne_nil hne
        simp only [List.head?_cons, Option.or_some] at hc
        rw [Option.some.injEq] at hc
        exact hc ▸ hhead a rfl
      · intro c hc
        rw [List.getLast?_append] at hc
        rw [hsplit] at hc
        have : ('\n' :: List.intercalate ['\n'] (l' :: ls')).getLast?
            = (List.intercalate ['\n'] (l' :: ls')).getLast? := by
          obtain ⟨a, t, ht⟩ := List.exists_cons_of_ne_nil hrest_ne
          rw [ht]
          rfl
        rw [this] at hc
        cases hg : (List.intercalate ['\n'] (l' :: ls')).getLast? with
        | none => exact absurd (List.getLast?_eq_none_iff.mp hg) hrest_ne
        | some y =>
          rw [hg] at hc
          simp only [Option.or_some, Option.some.injEq] at hc
          exact hc ▸ hlst y hg

theorem pyStripL_eq_self (l : List Char)
    (hh : ∀ c, l.head? = some c → pyIsSpace c = false)
    (hl : ∀ c, l.getLast? = some c → pyIsSpace c = false) :
    pyStripL l = l := by
  have hdrop : List.dropWhile pyIsSpace l = l := by
    cases l with
    | nil => rfl
    | cons a t =>
      rw [List.dropWhile_cons, if_neg]
      rw [hh a rfl]
      simp
  unfold pyStripL
  rw [hdrop]
  rw [List.rdropWhile_eq_self_iff]
  intro hne
  rw [hl (l.getLast hne) (List.getLast?_eq_getLast l hne)]
  simp

theorem text_clean (st : _MainTextExtractor) :
    (∃ ls : List (List Char),
        (st.text).data = List.intercalate ['\n'] ls ∧ ∀ l ∈ ls, GoodLine l)
    ∧ List.Chain' cleanAdj (st.text).data
    ∧ (∀ c, ((st.text).data).head? = some c → pyIsSpace c = false)
    ∧ (∀ c, ((st.text).data).getLast? = some c → pyIsSpace c = false) := by
  have hgood : ∀ l ∈ ((pySplitlinesAux (String.join st._chunks).data []).map pyStripL).filter
      (fun l => l ≠ []), GoodLine l := by
    intro l hlmem
    rw [List.mem_filter] at hlmem
    obtain ⟨hmap, hne⟩ := hlmem
    obtain ⟨l0, hl0, rfl⟩ := List.mem_map.mp hmap
    have hnb : ∀ c ∈ l0, isLineBreak c = false :=
      mem_pySplitlinesGo_no_break (String.join st._chunks).data false [] (by simp) l0 hl0
    refine ⟨by simpa using hne, ?_, fun c hc => pyStripL_head hc, fun c hc => pyStripL_last hc⟩
    intro hmem
    exact absurd (hnb '\n' ((pyStripL_sublist l0).subset hmem)) (by decide)
  have hprops := intercalate_good_props _ hgood
  have hdata : (st.text).data = pyStripL (List.intercalate ['\n']
      (((pySplitlinesAux (String.join st._chunks).data []).map pyStripL).filter
        (fun l => l ≠ []))) := rfl
  have heqs : pyStripL (List.intercalate ['\n']
      (((pySplitlinesAux (String.join st._chunks).data []).map pyStripL).filter
        (fun l => l ≠ [])))
      = List.intercalate ['\n']
        (((pySplitlinesAux (String.join st._chunks).data []).map pyStripL).filter
          (fun l => l ≠ [])) :=
    pyStripL_eq_self _ hprops.2.1 hprops.2.2
  refine ⟨⟨_, by rw [hdata, heqs], hgood⟩, ?_, ?_, ?_⟩
  · rw [hdata, heqs]
    exact hprops.1
  · rw [hdata, heqs]
    exact hprops.2.1
  · rw [hdata, heqs]
    exact hprops.2.2

/-- C4: for every input event stream, the normalized output is a `\n`-join
of non-empty lines with no leading or trailing whitespace, has no
whitespace adjacent to any newline (hence no empty line), and no leading or
trailing whitespace overall. -/
theorem normalized_text_line_shape (events : List HTMLEvent) :
    (∃ ls : List (List Char),
        ((feedEvents events).text).data = List.intercalate ['\n'] ls
        ∧ ∀ l ∈ ls, l ≠ [] ∧ '\n' ∉ l
          ∧ (∀ c, l.head? = some c → pyIsSpace c = false)
          ∧ (∀ c, l.getLast? = some c → pyIsSpace c = false))
    ∧ List.Chain'
        (fun a b => ¬(pyIsSpace a = true ∧ b = '\n') ∧ ¬(a = '\n' ∧ pyIsSpace b = true))
        ((feedEvents events).text).data
    ∧ (∀ c, (((feedEvents events).text).data).head? = some c → pyIsSpace c = false)
    ∧ (∀ c, (((feedEvents events).text).data).getLast? = some c → pyIsSpace c = false) :=
  text_clean (feedEvents events)

theorem normalized_text_line_shape_witness :
    (feedEvents evW).text = "Hello\nWorld"
    ∧ pyIsSpace 'H' = false ∧ pyIsSpace 'd' = false :=
  ⟨by decide,
   (normalized_text_line_shape evW).2.2.1 'H' (by decide),
   (normalized_text_line_shape evW).2.2.2 'd' (by decide)⟩
